import Mathlib

/-!
Shallow embedding of the multi-tenant incident-report application's
privileged admin-actions function, REST route handlers, and background
AI-analysis worker, together with theorems settling the frozen claims
about tenant scoping, role management, user deletion and result
aggregation.

Conventions of the embedding:
* A Cognito user pool is a `List PoolUser`; directory commands
  (`AdminGetUser`, `ListUsers`, `AdminDeleteUser`, ...) become pure
  list operations.
* JavaScript `undefined`-or-string values become `Option String`;
  JavaScript truthiness of such a value (`""` and `undefined` are
  falsy) is the predicate `truthy`, and `a || b` on them is `jsOr`.
* Handlers that `throw` return `Except String _`; handlers that issue
  AWS SDK commands also return the list of commands issued, so that
  "no delete command was issued" is a statement about the trace.
-/

namespace StraightForward

/-- A single Cognito attribute (name/value pair). -/
structure Attr where
  name : String
  value : String
deriving Repr, DecidableEq

/-- A user record of the Cognito user pool. -/
structure PoolUser where
  username : String
  attributes : List Attr
  groups : List String
  userStatus : String
  enabled : Bool
  createdAt : Option String
deriving Repr, DecidableEq

/-- The user pool, as reported by `ListUsersCommand`. -/
abbrev UserPool := List PoolUser

/-- `attrs.find(a => a.Name === n)?.Value` -/
def findAttr (attrs : List Attr) (n : String) : Option String :=
  (attrs.find? (fun a => a.name == n)).map Attr.value

/-- JavaScript truthiness of an optional string: `undefined` and `""` are falsy. -/
def truthy : Option String → Bool
  | none => false
  | some s => s ≠ ""

/-- JavaScript `a || b` on optional strings. -/
def jsOr (a b : Option String) : Option String :=
  if truthy a then a else b

/-- The caller identity attached to the invocation event (`event.identity`). -/
structure Identity where
  username : Option String
  groups : List String
  claims : List Attr
deriving Repr, DecidableEq

/-- `claims[`custom:${name}`] || claims[name]` — claim lookup with fallback key. -/
def getClaim (claims : List Attr) (n : String) : Option String :=
  jsOr (findAttr claims ("custom:" ++ n)) (findAttr claims n)

/-- `AdminGetUserCommand`: look the username up in the pool; `none` models the
`UserNotFoundException` path. -/
def adminGetUser (pool : UserPool) (username : String) : Option PoolUser :=
  pool.find? (fun u => u.username == username)

/-- The result of `getCallerContext` in the admin-actions handler. -/
structure CallerContext where
  groups : List String
  isSuperAdmin : Bool
  isAdmin : Bool
  companyId : Option String
  companyName : Option String
deriving Repr, DecidableEq

/-- `getCallerContext` of the admin-actions handler: company id from claims
first, and when the claims lack it and the caller is a (non-super) Admin
with a username, a fallback `AdminGetUser` lookup; a failed lookup is
caught and leaves the claims-derived values in place. -/
def getCallerContext (pool : UserPool) (identity : Option Identity) : CallerContext :=
  let groups := (identity.map Identity.groups).getD []
  let isSuperAdmin := groups.contains "SuperAdmin"
  let isAdmin := groups.contains "Admin"
  let claims := (identity.map Identity.claims).getD []
  let claimsCompanyId := getClaim claims "companyId"
  let claimsCompanyName := getClaim claims "companyName"
  let fetched : Option (Option String × Option String) :=
    if truthy (identity.bind Identity.username) && !isSuperAdmin && isAdmin
        && !(truthy claimsCompanyId) then
      match identity.bind Identity.username with
      | some uname =>
        match adminGetUser pool uname with
        | some u => some (findAttr u.attributes "custom:companyId",
                          findAttr u.attributes "custom:companyName")
        | none => none
      | none => none
    else none
  { groups := groups, isSuperAdmin := isSuperAdmin, isAdmin := isAdmin,
    companyId := (fetched.map Prod.fst).getD claimsCompanyId,
    companyName := (fetched.map Prod.snd).getD claimsCompanyName }

/-- The per-user record assembled by the `listUsers` case. -/
structure UserSummary where
  username : String
  email : Option String
  emailVerified : Bool
  status : String
  enabled : Bool
  createdAt : Option String
  groups : List String
  companyId : Option String
  companyName : Option String
deriving Repr, DecidableEq

/-- The per-user mapping of the `listUsers` case of the admin-actions handler. -/
def summarizeUser (u : PoolUser) : UserSummary :=
  { username := u.username
    email := findAttr u.attributes "email"
    emailVerified := findAttr u.attributes "email_verified" == some "true"
    status := u.userStatus
    enabled := u.enabled
    createdAt := u.createdAt
    groups := u.groups
    companyId := findAttr u.attributes "custom:companyId"
    companyName := findAttr u.attributes "custom:companyName" }

/-- The `listUsers` case of the admin-actions handler: map all pool users to
summaries, then filter by the caller's company unless the caller is a
SuperAdmin; a non-SuperAdmin without a derivable company id gets `[]`. -/
def listUsers (pool : UserPool) (identity : Option Identity) : List UserSummary :=
  let context := getCallerContext pool identity
  let allUsers := pool.map summarizeUser
  if context.isSuperAdmin then allUsers
  else if !(truthy context.companyId) then []
  else allUsers.filter (fun u => u.companyId == context.companyId)

/-- An AWS Cognito command issued by a handler (the observable side-effect trace). -/
inductive AdminCmd where
  | adminCreateUser (username : String) (attrs : List Attr)
  | adminSetUserPassword (username : String)
  | adminAddUserToGroup (username : String) (group : String)
  | adminRemoveUserFromGroup (username : String) (group : String)
  | adminGetUserCmd (username : String)
  | adminDeleteUser (username : String)
deriving Repr, DecidableEq

/-- Whether a command is an `AdminDeleteUserCommand`. -/
def AdminCmd.isDelete : AdminCmd → Bool
  | .adminDeleteUser _ => true
  | _ => false

/-- The payload of the `createUser` case. `email` is the (present) new
username; the other fields may be absent. -/
structure CreatePayload where
  email : String
  tempPassword : Option String
  group : Option String
  companyId : Option String
  companyName : Option String
deriving Repr, DecidableEq

/-- `if (v) attrs.push({Name: n, Value: v})` — append an attribute only when
its value is truthy. -/
def pushIfTruthy (n : String) (v : Option String) : List Attr :=
  match v with
  | some s => if s ≠ "" then [⟨n, s⟩] else []
  | none => []

/-- The `createUser` case of the admin-actions handler. Returns the created
user record (or the thrown error message) together with the trace of
Cognito commands issued. A non-SuperAdmin's company id overrides any
payload-supplied one; a non-SuperAdmin with no derivable company id is
rejected before any command is issued. -/
def createUser (pool : UserPool) (identity : Option Identity) (payload : CreatePayload) :
    Except String UserSummary × List AdminCmd :=
  let context := getCallerContext pool identity
  if !context.isSuperAdmin && !(truthy context.companyId) then
    (.error "Unauthorized: Admin has no associated company", [])
  else
    let finalCompanyId :=
      if !context.isSuperAdmin then context.companyId else payload.companyId
    let finalCompanyName :=
      if !context.isSuperAdmin then jsOr context.companyName payload.companyName
      else payload.companyName
    let userAttributes :=
      [⟨"email", payload.email⟩, ⟨"email_verified", "true"⟩]
        ++ pushIfTruthy "custom:companyId" finalCompanyId
        ++ pushIfTruthy "custom:companyName" finalCompanyName
    let groupCmds :=
      match payload.group with
      | some g => if g ≠ "" then [AdminCmd.adminAddUserToGroup payload.email g] else []
      | none => []
    let resultUser : UserSummary :=
      { username := payload.email
        email := some payload.email
        emailVerified := true
        status := "FORCE_CHANGE_PASSWORD"
        enabled := true
        createdAt := none
        groups := match payload.group with
          | some g => if g ≠ "" then [g] else []
          | none => []
        companyId := finalCompanyId
        companyName := finalCompanyName }
    (.ok resultUser,
      [AdminCmd.adminCreateUser payload.email userAttributes,
       AdminCmd.adminSetUserPassword payload.email] ++ groupCmds)

/-- The `deleteUser` case of the admin-actions handler. Returns the deleted
username (or the thrown error message) together with the trace of Cognito
commands issued. -/
def deleteUser (pool : UserPool) (identity : Option Identity) (username : Option String) :
    Except String String × List AdminCmd :=
  if !(truthy username) then
    (.error "Username is required for deleteUser", [])
  else
    let uname := username.getD ""
    let context := getCallerContext pool identity
    if !context.isSuperAdmin && context.isAdmin then
      if !(truthy context.companyId) then
        (.error "Unauthorized: Admin has no associated company", [])
      else
        match adminGetUser pool uname with
        | none => (.error "UserNotFoundException", [AdminCmd.adminGetUserCmd uname])
        | some target =>
          let targetCompanyId := findAttr target.attributes "custom:companyId"
          if targetCompanyId != context.companyId then
            (.error "Unauthorized: Cannot delete user from a different company",
             [AdminCmd.adminGetUserCmd uname])
          else
            (.ok uname, [AdminCmd.adminGetUserCmd uname, AdminCmd.adminDeleteUser uname])
    else if !context.isSuperAdmin then
      (.error "Unauthorized: Insufficient permissions to delete users", [])
    else
      (.ok uname, [AdminCmd.adminDeleteUser uname])

/-- The username and attributes of the `AdminCreateUserCommand` heading a
command trace, when there is one. -/
def createdAttrs : List AdminCmd → Option (String × List Attr)
  | AdminCmd.adminCreateUser e attrs :: _ => some (e, attrs)
  | _ => none

/-! ### Pool semantics of the Cognito commands -/

/-- Effect of a single Cognito command on the user pool. Read-only commands
leave the pool unchanged. -/
def applyCmd (pool : UserPool) : AdminCmd → UserPool
  | .adminCreateUser e attrs =>
    pool ++ [{ username := e, attributes := attrs, groups := [],
               userStatus := "FORCE_CHANGE_PASSWORD", enabled := true, createdAt := none }]
  | .adminAddUserToGroup u g =>
    pool.map (fun x => if x.username == u then { x with groups := x.groups ++ [g] } else x)
  | .adminRemoveUserFromGroup u g =>
    pool.map (fun x => if x.username == u then { x with groups := x.groups.filter (fun y => y ≠ g) } else x)
  | .adminDeleteUser u => pool.filter (fun x => x.username ≠ u)
  | .adminSetUserPassword _ => pool
  | .adminGetUserCmd _ => pool

/-- Effect of a command trace on the user pool. -/
def applyCmds (pool : UserPool) (cmds : List AdminCmd) : UserPool :=
  cmds.foldl applyCmd pool

/-! ### REST route handlers -/

/-- An HTTP response: status code and a label for the JSON body. -/
structure RestResponse where
  status : Nat
  body : String
deriving Repr, DecidableEq

/-- `v || null`: collapse a falsy value to `null`. -/
def jsOrNull (v : Option String) : Option String :=
  if truthy v then v else none

/-- The per-user record of the standalone REST user-listing handler
(company attributes reported as `attributes[...] || null`). -/
def restUserOf (u : PoolUser) : UserSummary :=
  { username := u.username
    email := some ((findAttr u.attributes "email").getD "")
    emailVerified := findAttr u.attributes "email_verified" == some "true"
    status := u.userStatus
    enabled := u.enabled
    createdAt := u.createdAt
    groups := u.groups
    companyId := jsOrNull (findAttr u.attributes "custom:companyId")
    companyName := jsOrNull (findAttr u.attributes "custom:companyName") }

/-- The standalone REST user-listing GET handler: lists every user of the
pool with their groups and attributes. The caller's identity is available
to the route (cookies/session) but is never consulted. -/
def restListUsersGet (caller : Option Identity) (pool : UserPool) : List UserSummary :=
  let _ := caller
  pool.map restUserOf

/-- The REST DELETE users handler: deletes whatever username the body
supplies; 400 when the username is missing, 404 when the pool reports
`UserNotFoundException`. The caller's identity is never consulted. -/
def usersDelete (caller : Option Identity) (username : Option String) (pool : UserPool) :
    RestResponse × UserPool × List AdminCmd :=
  let _ := caller
  if !(truthy username) then
    (⟨400, "Username is required"⟩, pool, [])
  else
    let uname := username.getD ""
    match adminGetUser pool uname with
    | none =>
      (⟨404, "User not found"⟩, pool, [AdminCmd.adminDeleteUser uname])
    | some _ =>
      (⟨200, "User " ++ uname ++ " deleted successfully"⟩,
       pool.filter (fun u => u.username ≠ uname),
       [AdminCmd.adminDeleteUser uname])

/-- The roles the update-role endpoint accepts. -/
def validRoles : List String := ["Admin", "IncidentReporter", "Customer"]

/-- The role options offered by the role-edit dialog's `Select`. -/
def editUserRoleDialogOptions : List String := ["Admin", "IncidentReporter", "HomeOwner"]

/-- Remove the user from every group of `current` (one
`AdminRemoveUserFromGroupCommand` per group), starting from group list `gs`. -/
def removeFromAll (gs : List String) (current : List String) : List String :=
  current.foldl (fun acc g => acc.filter (fun x => x != g)) gs

/-- The update-role POST handler: validate the role, remove the user from
every current group, then add the new role. Returns the response and the
updated pool. -/
def updateRolePost (username newRole : Option String) (pool : UserPool) :
    RestResponse × UserPool :=
  if !(truthy username) || !(truthy newRole) then
    (⟨400, "Username and new role are required"⟩, pool)
  else
    let uname := username.getD ""
    let role := newRole.getD ""
    if !(validRoles.contains role) then
      (⟨400, "Invalid role: " ++ role⟩, pool)
    else
      match adminGetUser pool uname with
      | none => (⟨404, "User not found"⟩, pool)
      | some u =>
        let afterRemovals := removeFromAll u.groups u.groups
        let newGroups := afterRemovals ++ [role]
        (⟨200, "User role updated to " ++ role⟩,
         pool.map (fun x => if x.username == uname then { x with groups := newGroups } else x))

/-! ### Incident-report creation route -/

/-- The JSON body of the report-creation POST. -/
structure ReportBody where
  claimNumber : Option String
  firstName : Option String
  lastName : Option String
  phone : Option String
  email : Option String
  address : Option String
  city : Option String
  state : Option String
  zip : Option String
  incidentDate : Option String
  description : Option String
  apartment : Option String
  shingleExposure : Option String
  companyId : Option String
  companyName : Option String
  submittedBy : Option String
  weatherReport : Option String
  photoUrls : Option (List String)
deriving Repr, DecidableEq

/-- The record handed to `IncidentReport.create`. -/
structure CreateReportInput where
  claimNumber : String
  firstName : String
  lastName : String
  phone : String
  email : String
  address : String
  city : String
  state : String
  zip : String
  incidentDate : String
  description : String
  apartment : Option String
  shingleExposure : Option String
  companyId : Option String
  companyName : Option String
  submittedBy : Option String
  weatherReport : Option String
  photoUrls : Option (List String)
  status : String
  submittedAt : String
  aiAnalysis : String
deriving Repr, DecidableEq

/-- The route's required-field validation. -/
def requiredPresent (b : ReportBody) : Bool :=
  truthy b.claimNumber && truthy b.firstName && truthy b.lastName && truthy b.phone &&
  truthy b.email && truthy b.address && truthy b.city && truthy b.state && truthy b.zip &&
  truthy b.incidentDate && truthy b.description

/-- The report-creation POST handler; `now` is the server timestamp. Returns
the HTTP status and, on success, the stored record. -/
def incidentReportPost (now : String) (body : ReportBody) :
    Except (Nat × String) (Nat × CreateReportInput) :=
  if !(requiredPresent body) then
    .error (400, "Missing required fields")
  else
    .ok (201,
      { claimNumber := body.claimNumber.getD ""
        firstName := body.firstName.getD ""
        lastName := body.lastName.getD ""
        phone := body.phone.getD ""
        email := body.email.getD ""
        address := body.address.getD ""
        city := body.city.getD ""
        state := body.state.getD ""
        zip := body.zip.getD ""
        incidentDate := body.incidentDate.getD ""
        description := body.description.getD ""
        apartment := jsOrNull body.apartment
        shingleExposure := jsOrNull body.shingleExposure
        companyId := jsOrNull body.companyId
        companyName := jsOrNull body.companyName
        submittedBy := jsOrNull body.submittedBy
        weatherReport := jsOrNull body.weatherReport
        photoUrls := body.photoUrls
        status := "submitted"
        submittedAt := now
        aiAnalysis := "\x7b\"status\":\"pending\"\x7d" })

/-! ### Analyze route -/

/-- The fields of an incident report the analyze route inspects. -/
structure AnalyzeReport where
  id : String
  photoUrls : Option (List String)
deriving Repr, DecidableEq

/-- An observable action of the analyze route. -/
inductive AnalyzeAction where
  | updateAiAnalysis (id : String) (status : String)
  | invokeFunction (functionName : String) (invocationType : String) (reportId : String)
deriving Repr, DecidableEq

/-- The analyze POST handler: 404 when the report fetch fails or finds
nothing, 400 when the report has no photos, otherwise write the
'analyzing' blob, invoke the background function with invocation type
'Event', and answer success immediately. -/
def analyzePost (id : String) (fetchResult : Option AnalyzeReport) (fetchErrors : Bool)
    (functionName : Option String) : RestResponse × List AnalyzeAction :=
  if fetchErrors || fetchResult.isNone then
    (⟨404, "Report not found"⟩, [])
  else
    let report := fetchResult.getD ⟨id, none⟩
    if (report.photoUrls.getD []).length == 0 then
      (⟨400, "No photos to analyze"⟩, [])
    else
      let upd := AnalyzeAction.updateAiAnalysis id "analyzing"
      if !(truthy functionName) then
        (⟨500, "Internal Server Error"⟩, [upd])
      else
        (⟨200, "Analysis started in background"⟩,
         [upd, AnalyzeAction.invokeFunction (functionName.getD "") "Event" id])

/-! ### Background analysis worker -/

/-- The `peril_match` object of a per-photo inference result. -/
structure PerilMatch where
  matchValue : String
  reason : String
deriving Repr, DecidableEq

/-- A single detection of a per-photo inference result; `payload` stands for
the remaining per-detection fields, which the worker never inspects. -/
structure Detection where
  output_s3_uri : Option String
  payload : String
deriving Repr, DecidableEq

/-- The body of a successful per-photo inference result (`aiResult.result`).
An absent array field is modelled as `[]` (both aggregate identically);
an absent `final_assessment` is modelled as the falsy `""`. -/
structure AiResultData where
  detections : List Detection
  evidence_bullets : List String
  fraud_signals : List String
  final_assessment : String
  peril_match : Option PerilMatch
deriving Repr, DecidableEq

/-- Outcome of one call of the external inference endpoint. -/
inductive AiOutcome where
  | httpError (msg : String)
  | resultError (msg : String)
  | okResult (r : AiResultData)
  | exn (msg : String)
deriving Repr, DecidableEq

/-- The mutable aggregation state of the per-photo loop:
`aggregatedData` plus the `uniqueAssessments` set (insertion order). -/
structure LoopState where
  detections : List Detection
  evidence_bullets : List String
  fraud_signals : List String
  peril_match : PerilMatch
  assessments : List String
deriving Repr, DecidableEq

/-- The aggregation state before the loop. -/
def initLoopState : LoopState :=
  { detections := []
    evidence_bullets := []
    fraud_signals := []
    peril_match := ⟨"unknown", ""⟩
    assessments := [] }

/-- `Set.add`: append unless already present (JS `Set` insertion order). -/
def setInsert (l : List String) (s : String) : List String :=
  if l.contains s then l else l ++ [s]

/-- `Array.from(new Set(xs))`: first-occurrence deduplication. -/
def dedup (l : List String) : List String := l.foldl setInsert []

/-- Aggregation of one successful per-photo result into the loop state. -/
def stepResult (st : LoopState) (r : AiResultData) : LoopState :=
  { detections := st.detections ++ r.detections
    evidence_bullets := st.evidence_bullets ++ r.evidence_bullets
    fraud_signals := st.fraud_signals ++ r.fraud_signals
    peril_match :=
      match r.peril_match with
      | some pm => if pm.matchValue ≠ "unknown" then pm else st.peril_match
      | none => st.peril_match
    assessments :=
      if r.final_assessment ≠ "" then setInsert st.assessments r.final_assessment
      else st.assessments }

/-- One loop iteration: a failed call or an error result is skipped. -/
def stepOutcome (st : LoopState) (o : AiOutcome) : LoopState :=
  match o with
  | .okResult r => stepResult st r
  | _ => st

/-- The per-photo loop from index `i`: each entry of `photos` produces
exactly one endpoint call, recorded in the returned trace as
(index, path). `oracle i` is the outcome of the call for index `i`. -/
def runPhotosFrom (i : Nat) (photos : List String) (oracle : Nat → AiOutcome)
    (st : LoopState) : LoopState × List (Nat × String) :=
  match photos with
  | [] => (st, [])
  | p :: rest =>
    let st1 := stepOutcome st (oracle i)
    let out := runPhotosFrom (i + 1) rest oracle st1
    (out.1, (i, p) :: out.2)

/-- The calls the worker makes to the inference endpoint for a report. -/
def aiCallTrace (photos : List String) (oracle : Nat → AiOutcome) : List (Nat × String) :=
  (runPhotosFrom 0 photos oracle initLoopState).2

/-- The successful results among the outcomes of the loop from index `i`. -/
def okResults (i : Nat) (photos : List String) (oracle : Nat → AiOutcome) : List AiResultData :=
  match photos with
  | [] => []
  | _ :: rest =>
    match oracle i with
    | .okResult r => r :: okResults (i + 1) rest oracle
    | _ => okResults (i + 1) rest oracle

/-- A detection's truthy `output_s3_uri`, when present. -/
def truthyUri (d : Detection) : Option String :=
  match d.output_s3_uri with
  | some s => if s ≠ "" then some s else none
  | none => none

/-- A detection of the final blob, annotated with the copied image's key. -/
structure DetectionOut where
  detection : Detection
  local_output_path : Option String
deriving Repr, DecidableEq

/-- The consolidated `aiAnalysis` blob. -/
structure FinalAnalysis where
  detections : List DetectionOut
  evidence_bullets : List String
  fraud_signals : List String
  final_assessment : String
  peril_match : PerilMatch
  all_local_paths : List String
deriving Repr, DecidableEq

/-- Finalization after the loop: join the distinct assessments (or mark the
assessment incomplete), deduplicate bullets and signals, copy each unique
output image (`copyDest uri` is the copied object's key, `none` when the
copy failed), and annotate detections with their copied key. -/
def finalizeAnalysis (st : LoopState) (copyDest : String → Option String) : FinalAnalysis :=
  let uniqueUris := dedup (st.detections.filterMap truthyUri)
  { detections := st.detections.map (fun d =>
      { detection := d
        local_output_path :=
          match truthyUri d with
          | some s => copyDest s
          | none => none })
    evidence_bullets := dedup st.evidence_bullets
    fraud_signals := dedup st.fraud_signals
    final_assessment :=
      if st.assessments.length > 0 then String.intercalate "; " st.assessments
      else "Assessment Incomplete"
    peril_match := st.peril_match
    all_local_paths := uniqueUris.filterMap copyDest }

/-- The `UpdateIncidentReport` input the worker writes back: the consolidated
blob and the status reset, in the same mutation. -/
structure UpdateReportInput where
  id : String
  aiAnalysis : FinalAnalysis
  status : String
deriving Repr, DecidableEq

/-- The whole worker pipeline for a report: run the per-photo loop, finalize,
and build the write-back input. -/
def analysisUpdateInput (reportId : String) (photos : List String)
    (oracle : Nat → AiOutcome) (copyDest : String → Option String) : UpdateReportInput :=
  { id := reportId
    aiAnalysis := finalizeAnalysis (runPhotosFrom 0 photos oracle initLoopState).1 copyDest
    status := "submitted" }

/-- The non-empty `final_assessment` of a result, when present. -/
def nonEmptyAssessment (r : AiResultData) : Option String :=
  if r.final_assessment ≠ "" then some r.final_assessment else none

/-- The non-`unknown` `peril_match` of a result, when present. -/
def nonUnknownPeril (r : AiResultData) : Option PerilMatch :=
  match r.peril_match with
  | some pm => if pm.matchValue ≠ "unknown" then some pm else none
  | none => none

/-! ### Concrete fixtures used by witnesses and counterexamples -/

/-- A company-c1 admin user present in the demo pool. -/
def userAlice : PoolUser :=
  { username := "alice"
    attributes := [⟨"email", "alice@c1.com"⟩, ⟨"email_verified", "true"⟩,
                   ⟨"custom:companyId", "c1"⟩, ⟨"custom:companyName", "CompanyOne"⟩]
    groups := ["Admin"]
    userStatus := "CONFIRMED"
    enabled := true
    createdAt := some "2026-01-01T00:00:00.000Z" }

/-- A company-c2 user present in the demo pool. -/
def userBob : PoolUser :=
  { username := "bob"
    attributes := [⟨"email", "bob@c2.com"⟩, ⟨"email_verified", "true"⟩,
                   ⟨"custom:companyId", "c2"⟩, ⟨"custom:companyName", "CompanyTwo"⟩]
    groups := ["Customer"]
    userStatus := "CONFIRMED"
    enabled := true
    createdAt := some "2026-01-02T00:00:00.000Z" }

/-- A super-admin user with no company attributes. -/
def userCarol : PoolUser :=
  { username := "carol"
    attributes := [⟨"email", "carol@hq.com"⟩, ⟨"email_verified", "true"⟩]
    groups := ["SuperAdmin"]
    userStatus := "CONFIRMED"
    enabled := true
    createdAt := some "2026-01-03T00:00:00.000Z" }

/-- The demo user pool. -/
def demoPool : UserPool := [userAlice, userBob, userCarol]

/-- Caller identity of alice with company claims present. -/
def aliceIdentity : Identity :=
  { username := some "alice"
    groups := ["Admin"]
    claims := [⟨"custom:companyId", "c1"⟩, ⟨"custom:companyName", "CompanyOne"⟩] }

/-- Caller identity of alice whose token claims lack the company attributes. -/
def aliceIdentityNoClaims : Identity :=
  { username := some "alice"
    groups := ["Admin"]
    claims := [] }

/-- Caller identity of an admin who exists nowhere in the pool and has no claims. -/
def ghostAdminIdentity : Identity :=
  { username := some "ghost"
    groups := ["Admin"]
    claims := [] }

/-! ## Helper lemmas -/

example : listUsers demoPool (some aliceIdentity) = [summarizeUser userAlice] := by decide
example : listUsers demoPool (some aliceIdentityNoClaims) = [summarizeUser userAlice] := by decide
example : listUsers demoPool (some ghostAdminIdentity) = [] := by decide

theorem getCallerContext_isSuperAdmin (pool : UserPool) (identity : Option Identity) :
    (getCallerContext pool identity).isSuperAdmin
      = ((identity.map Identity.groups).getD []).contains "SuperAdmin" := rfl

theorem getCallerContext_isAdmin (pool : UserPool) (identity : Option Identity) :
    (getCallerContext pool identity).isAdmin
      = ((identity.map Identity.groups).getD []).contains "Admin" := rfl

/-- When the claims carry a truthy company id, the caller context uses it. -/
theorem getCallerContext_companyId_of_claims (pool : UserPool) (id0 : Identity)
    (h : truthy (getClaim id0.claims "companyId") = true) :
    (getCallerContext pool (some id0)).companyId = getClaim id0.claims "companyId" := by
  simp [getCallerContext, h]

/-- When the claims lack a company id and the caller is a plain Admin found in
the pool, the caller context takes the company id from the fallback
`AdminGetUser` lookup. -/
theorem getCallerContext_companyId_fallback (pool : UserPool) (id0 : Identity)
    (uname : String) (u : PoolUser)
    (hu : id0.username = some uname) (hne : uname ≠ "")
    (hc : truthy (getClaim id0.claims "companyId") = false)
    (hsa : id0.groups.contains "SuperAdmin" = false)
    (ha : id0.groups.contains "Admin" = true)
    (hfind : adminGetUser pool uname = some u) :
    (getCallerContext pool (some id0)).companyId = findAttr u.attributes "custom:companyId" := by
  have hsa' : "SuperAdmin" ∉ id0.groups := by simpa using hsa
  have ha' : "Admin" ∈ id0.groups := by simpa using ha
  simp only [truthy, ne_eq, decide_not] at hc
  simp [getCallerContext, hu, hfind, truthy, hne, hsa', ha', hc]

/-- Membership in the company-filtered user summaries. -/
theorem mem_filter_map_summarize (pool : UserPool) (cid : String) (s : UserSummary) :
    (s ∈ (pool.map summarizeUser).filter (fun u => u.companyId == some cid)) ↔
      ∃ u ∈ pool, summarizeUser u = s ∧ findAttr u.attributes "custom:companyId" = some cid := by
  rw [List.mem_filter, List.mem_map]
  constructor
  · rintro ⟨⟨u, hu, rfl⟩, hc⟩
    exact ⟨u, hu, rfl, by simpa [summarizeUser] using (beq_iff_eq.mp hc)⟩
  · rintro ⟨u, hu, rfl, hc⟩
    exact ⟨⟨u, hu, rfl⟩, by simp [summarizeUser, hc]⟩

/-! ## C1 -/

/-- C1: for a non-SuperAdmin caller, the admin-actions `listUsers` action
returns exactly the pool users whose `custom:companyId` equals the caller's
derived company id, and the empty list when no company id is derivable; the
derivation takes the id from the identity claims when they carry one, and
otherwise — for an Admin present in the directory — from the fallback
`AdminGetUser` lookup. -/
theorem listUsers_tenant_scoped (pool : UserPool) (identity : Option Identity)
    (hns : (getCallerContext pool identity).isSuperAdmin = false) :
    (∀ cid, (getCallerContext pool identity).companyId = some cid → cid ≠ "" →
      ∀ s, s ∈ listUsers pool identity ↔
        ∃ u ∈ pool, summarizeUser u = s ∧ findAttr u.attributes "custom:companyId" = some cid) ∧
    (truthy (getCallerContext pool identity).companyId = false →
      listUsers pool identity = []) ∧
    (∀ id0, identity = some id0 → truthy (getClaim id0.claims "companyId") = true →
      (getCallerContext pool identity).companyId = getClaim id0.claims "companyId") ∧
    (∀ id0 uname u, identity = some id0 → id0.username = some uname → uname ≠ "" →
      truthy (getClaim id0.claims "companyId") = false →
      (getCallerContext pool identity).isAdmin = true →
      adminGetUser pool uname = some u →
      (getCallerContext pool identity).companyId = findAttr u.attributes "custom:companyId") := by
  refine ⟨?_, ?_, ?_, ?_⟩
  · intro cid hcid hne s
    have htr : truthy (getCallerContext pool identity).companyId = true := by
      rw [hcid]; simp [truthy, hne]
    simp only [listUsers]
    rw [hns, htr]
    simp only [Bool.false_eq_true, if_false, Bool.not_true, hcid]
    exact mem_filter_map_summarize pool cid s
  · intro h
    simp only [listUsers]
    rw [hns, h]
    simp
  · rintro id0 rfl h
    exact getCallerContext_companyId_of_claims pool id0 h
  · rintro id0 uname u rfl hu hne hc hA hfind
    have hsa : id0.groups.contains "SuperAdmin" = false := by
      simpa [getCallerContext_isSuperAdmin] using hns
    have ha : id0.groups.contains "Admin" = true := by
      simpa [getCallerContext_isAdmin] using hA
    exact getCallerContext_companyId_fallback pool id0 uname u hu hne hc hsa ha hfind

/-- C1 witness: a concrete admin of company c1 sees exactly the c1 user. -/
theorem listUsers_tenant_scoped_witness :
    summarizeUser userAlice ∈ listUsers demoPool (some aliceIdentity) := by
  have h := (listUsers_tenant_scoped demoPool (some aliceIdentity) (by decide)).1
    "c1" (by decide) (by decide) (summarizeUser userAlice)
  exact h.mpr ⟨userAlice, by decide, rfl, by decide⟩

/-! ## C3 -/

/-- A creation payload that tries to smuggle in a foreign company id. -/
def evilPayload : CreatePayload :=
  { email := "eve@c1.com"
    tempPassword := some "Temp1234!"
    group := some "Customer"
    companyId := some "c2"
    companyName := some "CompanyTwo" }

/-- C3: a non-SuperAdmin `createUser` call creates the user with the
caller's own company id regardless of the payload-supplied one, and a
caller with no derivable company id gets the Unauthorized error with no
command issued. -/
theorem createUser_enforces_caller_company (pool : UserPool) (identity : Option Identity)
    (payload : CreatePayload)
    (hns : (getCallerContext pool identity).isSuperAdmin = false) :
    (truthy (getCallerContext pool identity).companyId = false →
      createUser pool identity payload
        = (.error "Unauthorized: Admin has no associated company", [])) ∧
    (∀ cid, (getCallerContext pool identity).companyId = some cid → cid ≠ "" →
      (createdAttrs (createUser pool identity payload).2).map
          (fun p => (p.1, findAttr p.2 "custom:companyId")) = some (payload.email, some cid) ∧
      ((createUser pool identity payload).1.toOption.map UserSummary.companyId)
        = some (some cid)) := by
  constructor
  · intro h
    simp [createUser, hns, h]
  · intro cid hcid hne
    have htr : truthy (getCallerContext pool identity).companyId = true := by
      rw [hcid]; simp [truthy, hne]
    constructor
    · simp only [createUser, hns, htr]
      simp [hcid, createdAttrs, pushIfTruthy, hne, findAttr, List.find?]
    · simp only [createUser, hns, htr]
      simp [hcid]
      exact ⟨_, rfl, rfl⟩

/-- C3 witness: with a concrete c1 admin and a payload claiming company c2,
the created user carries c1; a concrete admin with no company is rejected. -/
theorem createUser_enforces_caller_company_witness :
    ((createdAttrs (createUser demoPool (some aliceIdentity) evilPayload).2).map
        (fun p => (p.1, findAttr p.2 "custom:companyId")) = some ("eve@c1.com", some "c1") ∧
      ((createUser demoPool (some aliceIdentity) evilPayload).1.toOption.map
        UserSummary.companyId) = some (some "c1")) ∧
    createUser demoPool (some ghostAdminIdentity) evilPayload
      = (.error "Unauthorized: Admin has no associated company", []) := by
  constructor
  · exact (createUser_enforces_caller_company demoPool (some aliceIdentity) evilPayload
      (by decide)).2 "c1" (by decide) (by decide)
  · exact (createUser_enforces_caller_company demoPool (some ghostAdminIdentity) evilPayload
      (by decide)).1 (by decide)

/-! ## C4 -/

/-- C4: `deleteUser` lets a SuperAdmin delete any user; an Admin only a
same-company target, any other case throwing Unauthorized with no delete
command issued and the pool unchanged; and a caller in neither group is
always rejected with no command issued. -/
theorem deleteUser_tenant_check (pool : UserPool) (identity : Option Identity)
    (uname : String) (hne : uname ≠ "") :
    ((getCallerContext pool identity).isSuperAdmin = true →
      deleteUser pool identity (some uname)
        = (.ok uname, [AdminCmd.adminDeleteUser uname])) ∧
    ((getCallerContext pool identity).isSuperAdmin = false →
     (getCallerContext pool identity).isAdmin = true →
      (truthy (getCallerContext pool identity).companyId = false →
        deleteUser pool identity (some uname)
          = (.error "Unauthorized: Admin has no associated company", [])) ∧
      (∀ target, adminGetUser pool uname = some target →
        truthy (getCallerContext pool identity).companyId = true →
        (findAttr target.attributes "custom:companyId"
            = (getCallerContext pool identity).companyId →
          deleteUser pool identity (some uname)
            = (.ok uname, [AdminCmd.adminGetUserCmd uname, AdminCmd.adminDeleteUser uname])) ∧
        (findAttr target.attributes "custom:companyId"
            ≠ (getCallerContext pool identity).companyId →
          (∃ e, (deleteUser pool identity (some uname)).1 = .error e) ∧
          (∀ c ∈ (deleteUser pool identity (some uname)).2, c.isDelete = false) ∧
          applyCmds pool (deleteUser pool identity (some uname)).2 = pool))) ∧
    ((getCallerContext pool identity).isSuperAdmin = false →
     (getCallerContext pool identity).isAdmin = false →
      deleteUser pool identity (some uname)
        = (.error "Unauthorized: Insufficient permissions to delete users", [])) := by
  have hu : truthy (some uname) = true := by simp [truthy, hne]
  refine ⟨?_, ?_, ?_⟩
  · intro hs
    simp [deleteUser, hu, hs]
  · intro hs ha
    constructor
    · intro h
      simp [deleteUser, hu, hs, ha, h]
    · intro target htarget htr
      constructor
      · intro heq
        simp [deleteUser, hu, hs, ha, htr, htarget, heq]
      · intro hne2
        refine ⟨⟨"Unauthorized: Cannot delete user from a different company", ?_⟩, ?_, ?_⟩
        · simp [deleteUser, hu, hs, ha, htr, htarget, hne2]
        · simp [deleteUser, hu, hs, ha, htr, htarget, hne2, AdminCmd.isDelete]
        · simp [deleteUser, hu, hs, ha, htr, htarget, hne2, applyCmds, applyCmd]
  · intro hs ha
    simp [deleteUser, hu, hs, ha]

/-- C4 witness: concrete instances — carol the SuperAdmin deletes bob; alice
the c1 admin is refused on the c2 user bob with no delete command; bob, in
neither group, is always refused. -/
theorem deleteUser_tenant_check_witness :
    deleteUser demoPool (some ⟨some "carol", ["SuperAdmin"], []⟩) (some "bob")
      = (.ok "bob", [AdminCmd.adminDeleteUser "bob"]) ∧
    (∃ e, (deleteUser demoPool (some aliceIdentity) (some "bob")).1 = .error e) ∧
    applyCmds demoPool (deleteUser demoPool (some aliceIdentity) (some "bob")).2 = demoPool := by
  refine ⟨?_, ?_, ?_⟩
  · exact (deleteUser_tenant_check demoPool (some ⟨some "carol", ["SuperAdmin"], []⟩)
      "bob" (by decide)).1 (by decide)
  · exact (((deleteUser_tenant_check demoPool (some aliceIdentity) "bob" (by decide)).2.1
      (by decide) (by decide)).2 userBob (by decide) (by decide)).2 (by decide) |>.1
  · exact (((deleteUser_tenant_check demoPool (some aliceIdentity) "bob" (by decide)).2.1
      (by decide) (by decide)).2 userBob (by decide) (by decide)).2 (by decide) |>.2.2

/-! ## C2 -/

/-- C2 counterexample: alice, a non-super-admin of company c1, calls the
standalone REST user-listing handler and receives bob, a user of company
c2 — the handler does not re-derive or enforce company membership. -/
theorem restListUsersGet_not_tenant_scoped :
    aliceIdentity.groups.contains "SuperAdmin" = false ∧
    getClaim aliceIdentity.claims "companyId" = some "c1" ∧
    restUserOf userBob ∈ restListUsersGet (some aliceIdentity) demoPool ∧
    (restUserOf userBob).companyId = some "c2" := by decide

/-- C2 amended: the standalone REST user-listing handlers perform no
caller-derived filtering at all — every caller, super-admin or not,
receives every user of the pool; tenant scoping of user listings is only
enforced by the admin-actions function's `listUsers`. -/
theorem restListUsersGet_returns_all (caller other : Option Identity) (pool : UserPool) :
    restListUsersGet caller pool = pool.map restUserOf ∧
    restListUsersGet caller pool = restListUsersGet other pool ∧
    (∀ u, u ∈ pool → restUserOf u ∈ restListUsersGet caller pool) := by
  refine ⟨rfl, rfl, ?_⟩
  intro u hu
  exact List.mem_map_of_mem restUserOf hu

/-- C2 amended witness: the c1 admin alice receives the whole demo pool. -/
theorem restListUsersGet_returns_all_witness :
    restListUsersGet (some aliceIdentity) demoPool = demoPool.map restUserOf ∧
    restUserOf userBob ∈ restListUsersGet (some aliceIdentity) demoPool := by
  refine ⟨(restListUsersGet_returns_all (some aliceIdentity) none demoPool).1, ?_⟩
  exact (restListUsersGet_returns_all (some aliceIdentity) none demoPool).2.2 userBob
    (by decide)

/-! ## C8 -/

/-- A report-creation body with every required field present and no company. -/
def noCompanyBody : ReportBody :=
  { claimNumber := some "CLM-1"
    firstName := some "Ann"
    lastName := some "Lee"
    phone := some "5551234"
    email := some "ann@lee.example"
    address := some "1 Main St"
    city := some "Springfield"
    state := some "IL"
    zip := some "62704"
    incidentDate := some "2026-01-05"
    description := some "hail damage to roof"
    apartment := none
    shingleExposure := none
    companyId := none
    companyName := none
    submittedBy := none
    weatherReport := none
    photoUrls := none }

/-- C8 counterexample: the report-creation endpoint accepts (201) a valid
body that supplies no companyId, and the stored record carries none — so
not every accepted report carries a tenant id. -/
theorem incidentReportPost_accepts_missing_companyId :
    (incidentReportPost "2026-01-06T00:00:00Z" noCompanyBody).toOption.map
      (fun p => (p.1, p.2.companyId)) = some (201, none) := by decide

/-- C8 amended: an accepted report carries at most one companyId — exactly
the payload-supplied one when the payload supplies a truthy one, and none
otherwise; tenant assignment is not enforced by the creation endpoint. -/
theorem incidentReportPost_companyId_passthrough (now : String) (body : ReportBody) :
    (∀ s inp, incidentReportPost now body = .ok (s, inp) →
      s = 201 ∧ inp.companyId = jsOrNull body.companyId) ∧
    (requiredPresent body = false →
      incidentReportPost now body = .error (400, "Missing required fields")) := by
  constructor
  · intro s inp h
    by_cases hreq : requiredPresent body
    · simp [incidentReportPost, hreq] at h
      exact ⟨h.1.symm, by rw [← h.2]⟩
    · simp [incidentReportPost, hreq] at h
  · intro h
    simp [incidentReportPost, h]

/-- C8 amended witness: a concrete body with a company id stores exactly it,
and the no-company body stores none. -/
theorem incidentReportPost_companyId_passthrough_witness :
    (201 : Nat) = 201 ∧
    ((incidentReportPost "2026-01-06T00:00:00Z" noCompanyBody).toOption.map
      (fun p => p.2.companyId)) = some (jsOrNull noCompanyBody.companyId) := by
  constructor
  · rfl
  · have h := (incidentReportPost_companyId_passthrough "2026-01-06T00:00:00Z" noCompanyBody).1
    cases hres : incidentReportPost "2026-01-06T00:00:00Z" noCompanyBody with
    | error e =>
      have hsome : (incidentReportPost "2026-01-06T00:00:00Z"
          noCompanyBody).toOption.isSome = true := by decide
      rw [hres] at hsome
      simp [Except.toOption] at hsome
    | ok p =>
      have := h p.1 p.2 (by rw [hres])
      simp [hres, Except.toOption, this.2]

/-! ## C10 -/

/-- C10: the REST DELETE users endpoint behaves identically for any two
callers, always issues the delete for the supplied username with no
membership or self-deletion check, and answers 404 exactly when the pool
reports the username unknown. -/
theorem usersDelete_no_auth_checks (c1 c2 : Option Identity) (username : String)
    (hne : username ≠ "") (pool : UserPool) :
    usersDelete c1 (some username) pool = usersDelete c2 (some username) pool ∧
    (usersDelete c1 (some username) pool).2.2 = [AdminCmd.adminDeleteUser username] ∧
    (∀ u, adminGetUser pool username = some u →
      (usersDelete c1 (some username) pool).1.status = 200 ∧
      (usersDelete c1 (some username) pool).2.1
        = pool.filter (fun x => x.username ≠ username)) ∧
    ((usersDelete c1 (some username) pool).1.status = 404 ↔
      adminGetUser pool username = none) := by
  have hu : truthy (some username) = true := by simp [truthy, hne]
  refine ⟨rfl, ?_, ?_, ?_⟩
  · cases h : adminGetUser pool username <;> simp [usersDelete, hu, h]
  · intro u h
    simp [usersDelete, hu, h]
  · cases h : adminGetUser pool username <;> simp [usersDelete, hu, h]

/-- C10 witness: two different concrete callers get the same outcome on
"bob", and the pool reports 404 for an unknown username. -/
theorem usersDelete_no_auth_checks_witness :
    usersDelete (some aliceIdentity) (some "bob") demoPool
      = usersDelete none (some "bob") demoPool ∧
    (usersDelete (some aliceIdentity) (some "bob") demoPool).1.status = 200 ∧
    (usersDelete (some aliceIdentity) (some "nobody") demoPool).1.status = 404 := by
  refine ⟨(usersDelete_no_auth_checks (some aliceIdentity) none "bob" (by decide) demoPool).1,
    ((usersDelete_no_auth_checks (some aliceIdentity) none "bob" (by decide) demoPool).2.2.1
      userBob (by decide)).1, ?_⟩
  exact (usersDelete_no_auth_checks (some aliceIdentity) none "nobody"
    (by decide) demoPool).2.2.2.mpr (by decide)

/-! ## C7 -/

/-- C7: the analyze route answers 404 when the report fetch fails or finds
nothing, 400 when the report has no photos, and otherwise writes the
'analyzing' blob, invokes the background function with invocation type
'Event', and answers success immediately. -/
theorem analyzePost_behavior (id : String) (fetchResult : Option AnalyzeReport)
    (fetchErrors : Bool) (functionName : Option String) :
    ((fetchResult = none ∨ fetchErrors = true) →
      analyzePost id fetchResult fetchErrors functionName = (⟨404, "Report not found"⟩, [])) ∧
    (∀ r, fetchResult = some r → fetchErrors = false → (r.photoUrls.getD []).length = 0 →
      analyzePost id fetchResult fetchErrors functionName
        = (⟨400, "No photos to analyze"⟩, [])) ∧
    (∀ r fn, fetchResult = some r → fetchErrors = false →
      (r.photoUrls.getD []).length ≠ 0 → functionName = some fn → fn ≠ "" →
      analyzePost id fetchResult fetchErrors functionName
        = (⟨200, "Analysis started in background"⟩,
           [AnalyzeAction.updateAiAnalysis id "analyzing",
            AnalyzeAction.invokeFunction fn "Event" id])) := by
  refine ⟨?_, ?_, ?_⟩
  · rintro (h | h) <;> simp [analyzePost, h]
  · rintro r rfl hferr hlen
    simp [analyzePost, hferr, hlen]
  · rintro r fn rfl hferr hlen rfl hfn
    simp [analyzePost, hferr, hlen, truthy, hfn]

/-- C7 witness: concrete runs through all three branches. -/
theorem analyzePost_behavior_witness :
    analyzePost "r1" none false (some "bgFn") = (⟨404, "Report not found"⟩, []) ∧
    analyzePost "r1" (some ⟨"r1", some []⟩) false (some "bgFn")
      = (⟨400, "No photos to analyze"⟩, []) ∧
    analyzePost "r1" (some ⟨"r1", some ["p.jpg"]⟩) false (some "bgFn")
      = (⟨200, "Analysis started in background"⟩,
         [AnalyzeAction.updateAiAnalysis "r1" "analyzing",
          AnalyzeAction.invokeFunction "bgFn" "Event" "r1"]) := by
  refine ⟨?_, ?_, ?_⟩
  · exact (analyzePost_behavior "r1" none false (some "bgFn")).1 (Or.inl rfl)
  · exact (analyzePost_behavior "r1" (some ⟨"r1", some []⟩) false (some "bgFn")).2.1
      ⟨"r1", some []⟩ rfl rfl (by decide)
  · exact (analyzePost_behavior "r1" (some ⟨"r1", some ["p.jpg"]⟩) false (some "bgFn")).2.2
      ⟨"r1", some ["p.jpg"]⟩ "bgFn" rfl rfl (by decide) rfl (by decide)

/-! ## C9 -/

/-- Removing a user from every group of `l` empties any group list whose
members all lie in `l`. -/
theorem removeFromAll_eq_nil (l : List String) :
    ∀ gs : List String, (∀ x ∈ gs, x ∈ l) → removeFromAll gs l = [] := by
  induction l with
  | nil =>
    intro gs h
    have hnil : gs = [] := List.eq_nil_iff_forall_not_mem.mpr
      (fun a ha => by simpa using h a ha)
    simp [removeFromAll, hnil]
  | cons a l ih =>
    intro gs h
    show removeFromAll (gs.filter (fun x => x != a)) l = []
    apply ih
    intro x hx
    rw [List.mem_filter] at hx
    have hxa : x ≠ a := by simpa using hx.2
    rcases List.mem_cons.mp (h x hx.1) with h1 | h2
    · exact absurd h1 hxa
    · exact h2

/-- C9: the update-role endpoint accepts exactly Admin, IncidentReporter and
Customer; any other value — including the HomeOwner option the role-edit
dialog offers — gets 400 with the pool unchanged; a successful update
removes the user from every current group and adds the new role, leaving
exactly that one group. -/
theorem updateRolePost_role_validation (pool : UserPool) (username newRole : String)
    (hname : username ≠ "") (hrole : newRole ≠ "") :
    ("HomeOwner" ∈ editUserRoleDialogOptions ∧
      validRoles = ["Admin", "IncidentReporter", "Customer"]) ∧
    (validRoles.contains newRole = false →
      updateRolePost (some username) (some newRole) pool
        = (⟨400, "Invalid role: " ++ newRole⟩, pool)) ∧
    (validRoles.contains newRole = true →
      ∀ u, adminGetUser pool username = some u →
        updateRolePost (some username) (some newRole) pool
          = (⟨200, "User role updated to " ++ newRole⟩,
             pool.map (fun x =>
               if x.username == username then { x with groups := [newRole] } else x))) := by
  have hu : truthy (some username) = true := by simp [truthy, hname]
  have hr : truthy (some newRole) = true := by simp [truthy, hrole]
  refine ⟨⟨by decide, rfl⟩, ?_, ?_⟩
  · intro h
    have hmem : newRole ∉ validRoles := by simpa using h
    simp [updateRolePost, hu, hr, hmem]
  · intro h u hfind
    have hmem : newRole ∈ validRoles := by simpa using h
    have hrem : removeFromAll u.groups u.groups = [] :=
      removeFromAll_eq_nil u.groups u.groups (fun x hx => hx)
    simp [updateRolePost, hu, hr, hmem, hfind, hrem]

/-- C9 witness: on the demo pool, HomeOwner is refused with the pool intact
and Admin succeeds leaving bob in exactly the Admin group. -/
theorem updateRolePost_role_validation_witness :
    updateRolePost (some "bob") (some "HomeOwner") demoPool
      = (⟨400, "Invalid role: HomeOwner"⟩, demoPool) ∧
    updateRolePost (some "bob") (some "Admin") demoPool
      = (⟨200, "User role updated to Admin"⟩,
         demoPool.map (fun x =>
           if x.username == "bob" then { x with groups := ["Admin"] } else x)) := by
  constructor
  · exact (updateRolePost_role_validation demoPool "bob" "HomeOwner"
      (by decide) (by decide)).2.1 (by decide)
  · exact (updateRolePost_role_validation demoPool "bob" "Admin"
      (by decide) (by decide)).2.2 (by decide) userBob (by decide)

/-! ## C5 -/

/-- The per-photo loop calls the endpoint once per entry, in list order. -/
theorem runPhotosFrom_trace (oracle : Nat → AiOutcome) (photos : List String) :
    ∀ i st, (runPhotosFrom i photos oracle st).2 = photos.enumFrom i := by
  induction photos with
  | nil => intro i st; simp [runPhotosFrom, List.enumFrom]
  | cons p rest ih =>
    intro i st
    simp [runPhotosFrom, List.enumFrom, ih]

/-- The final loop state is the fold of the successful results only. -/
theorem runPhotosFrom_state (oracle : Nat → AiOutcome) (photos : List String) :
    ∀ i st, (runPhotosFrom i photos oracle st).1
      = (okResults i photos oracle).foldl stepResult st := by
  induction photos with
  | nil => intro i st; simp [runPhotosFrom, okResults]
  | cons p rest ih =>
    intro i st
    cases h : oracle i with
    | okResult r => simp [runPhotosFrom, okResults, h, stepOutcome, ih]
    | httpError m => simp [runPhotosFrom, okResults, h, stepOutcome, ih]
    | resultError m => simp [runPhotosFrom, okResults, h, stepOutcome, ih]
    | exn m => simp [runPhotosFrom, okResults, h, stepOutcome, ih]

/-- C5: the worker calls the inference endpoint exactly once per entry of the
report's photoUrls, sequentially in list order, and a photo whose call
fails or errors is skipped without retry: the final aggregation state is
the fold over the successful results alone, so processing continues with
the remaining photos. -/
theorem worker_calls_once_per_photo (photos : List String) (oracle : Nat → AiOutcome) :
    aiCallTrace photos oracle = photos.enum ∧
    (runPhotosFrom 0 photos oracle initLoopState).1
      = (okResults 0 photos oracle).foldl stepResult initLoopState := by
  constructor
  · rw [aiCallTrace, runPhotosFrom_trace]
    rfl
  · exact runPhotosFrom_state oracle photos 0 initLoopState

/-! ## C6 -/

theorem foldl_stepResult_detections (l : List AiResultData) :
    ∀ st, (l.foldl stepResult st).detections
      = st.detections ++ (l.map AiResultData.detections).flatten := by
  induction l with
  | nil => intro st; simp
  | cons r l ih =>
    intro st
    simp [ih, stepResult, List.append_assoc]

theorem foldl_stepResult_bullets (l : List AiResultData) :
    ∀ st, (l.foldl stepResult st).evidence_bullets
      = st.evidence_bullets ++ (l.map AiResultData.evidence_bullets).flatten := by
  induction l with
  | nil => intro st; simp
  | cons r l ih =>
    intro st
    simp [ih, stepResult, List.append_assoc]

theorem foldl_stepResult_signals (l : List AiResultData) :
    ∀ st, (l.foldl stepResult st).fraud_signals
      = st.fraud_signals ++ (l.map AiResultData.fraud_signals).flatten := by
  induction l with
  | nil => intro st; simp
  | cons r l ih =>
    intro st
    simp [ih, stepResult, List.append_assoc]

theorem foldl_stepResult_assessments (l : List AiResultData) :
    ∀ st, (l.foldl stepResult st).assessments
      = (l.filterMap nonEmptyAssessment).foldl setInsert st.assessments := by
  induction l with
  | nil => intro st; simp
  | cons r l ih =>
    intro st
    by_cases h : r.final_assessment = ""
    · simp [ih, stepResult, nonEmptyAssessment, h]
    · simp [ih, stepResult, nonEmptyAssessment, h]

theorem getLast?_cons_getD {α : Type _} (a d : α) (l : List α) :
    ((a :: l).getLast?).getD d = (l.getLast?).getD a := by
  rw [List.getLast?_cons]
  rfl

theorem map_detection_annotate (l : List Detection) (f : Detection → Option String) :
    (l.map (fun d => ({ detection := d, local_output_path := f d } : DetectionOut))).map
      DetectionOut.detection = l := by
  induction l with
  | nil => rfl
  | cons d l ih => simp [ih]

theorem foldl_stepResult_peril (l : List AiResultData) :
    ∀ st, (l.foldl stepResult st).peril_match
      = ((l.filterMap nonUnknownPeril).getLast?).getD st.peril_match := by
  induction l with
  | nil => intro st; simp
  | cons r l ih =>
    intro st
    cases hpm : r.peril_match with
    | none =>
      have hstep : (stepResult st r).peril_match = st.peril_match := by
        simp [stepResult, hpm]
      simp [nonUnknownPeril, hpm, ih, hstep]
    | some pm =>
      by_cases h : pm.matchValue = "unknown"
      · have hstep : (stepResult st r).peril_match = st.peril_match := by
          simp [stepResult, hpm, h]
        simp [nonUnknownPeril, hpm, h, ih, hstep]
      · have hstep : (stepResult st r).peril_match = pm := by
          simp [stepResult, hpm, h]
        rw [List.foldl_cons, ih, hstep]
        have hfm : (r :: l).filterMap nonUnknownPeril
            = pm :: l.filterMap nonUnknownPeril := by
          simp [nonUnknownPeril, hpm, h]
        rw [hfm, getLast?_cons_getD]

/-- C6: the consolidated blob concatenates the successful photos'
detections, deduplicates evidence bullets and fraud signals, joins the
distinct assessments with '; ' (or marks the assessment incomplete), keeps
the last non-'unknown' peril match, and resets the report status to
'submitted' in the very same write. -/
theorem worker_aggregation (reportId : String) (photos : List String)
    (oracle : Nat → AiOutcome) (copyDest : String → Option String) :
    ((analysisUpdateInput reportId photos oracle copyDest).aiAnalysis.detections.map
        DetectionOut.detection
      = ((okResults 0 photos oracle).map AiResultData.detections).flatten) ∧
    ((analysisUpdateInput reportId photos oracle copyDest).aiAnalysis.evidence_bullets
      = dedup (((okResults 0 photos oracle).map AiResultData.evidence_bullets).flatten)) ∧
    ((analysisUpdateInput reportId photos oracle copyDest).aiAnalysis.fraud_signals
      = dedup (((okResults 0 photos oracle).map AiResultData.fraud_signals).flatten)) ∧
    ((analysisUpdateInput reportId photos oracle copyDest).aiAnalysis.final_assessment
      = (if (dedup ((okResults 0 photos oracle).filterMap nonEmptyAssessment)).isEmpty
         then "Assessment Incomplete"
         else String.intercalate "; "
           (dedup ((okResults 0 photos oracle).filterMap nonEmptyAssessment)))) ∧
    (∀ pm, ((okResults 0 photos oracle).filterMap nonUnknownPeril).getLast? = some pm →
      (analysisUpdateInput reportId photos oracle copyDest).aiAnalysis.peril_match = pm) ∧
    (analysisUpdateInput reportId photos oracle copyDest).id = reportId ∧
    (analysisUpdateInput reportId photos oracle copyDest).status = "submitted" := by
  have hst := runPhotosFrom_state oracle photos 0 initLoopState
  refine ⟨?_, ?_, ?_, ?_, ?_, rfl, rfl⟩
  · show ((finalizeAnalysis (runPhotosFrom 0 photos oracle initLoopState).1
        copyDest).detections.map DetectionOut.detection) = _
    rw [hst]
    simp only [finalizeAnalysis]
    rw [map_detection_annotate _ (fun d =>
      match truthyUri d with
      | some s => copyDest s
      | none => none)]
    rw [foldl_stepResult_detections]
    simp [initLoopState]
  · show (finalizeAnalysis (runPhotosFrom 0 photos oracle initLoopState).1
        copyDest).evidence_bullets = _
    rw [hst]
    simp [finalizeAnalysis, foldl_stepResult_bullets, initLoopState]
  · show (finalizeAnalysis (runPhotosFrom 0 photos oracle initLoopState).1
        copyDest).fraud_signals = _
    rw [hst]
    simp [finalizeAnalysis, foldl_stepResult_signals, initLoopState]
  · show (finalizeAnalysis (runPhotosFrom 0 photos oracle initLoopState).1
        copyDest).final_assessment = _
    rw [hst]
    have hass : ((okResults 0 photos oracle).foldl stepResult initLoopState).assessments
        = dedup ((okResults 0 photos oracle).filterMap nonEmptyAssessment) := by
      rw [foldl_stepResult_assessments]
      rfl
    simp only [finalizeAnalysis, hass]
    cases hd : dedup ((okResults 0 photos oracle).filterMap nonEmptyAssessment) with
    | nil => simp
    | cons a l => simp
  · intro pm hpm
    show (finalizeAnalysis (runPhotosFrom 0 photos oracle initLoopState).1
        copyDest).peril_match = pm
    rw [hst]
    simp [finalizeAnalysis, foldl_stepResult_peril, hpm]

/-- A demo per-photo oracle: the first photo succeeds with a hail match, the
second fails at HTTP level, the third succeeds with duplicate bullets and
an unknown peril. -/
def demoOracle : Nat → AiOutcome := fun i =>
  if i == 0 then
    AiOutcome.okResult
      { detections := [⟨some "s3://out/a.jpg", "dent cluster"⟩]
        evidence_bullets := ["hail spatter"]
        fraud_signals := []
        final_assessment := "Hail damage"
        peril_match := some ⟨"hail", "circular dents"⟩ }
  else if i == 1 then AiOutcome.httpError "HTTP 500"
  else
    AiOutcome.okResult
      { detections := []
        evidence_bullets := ["hail spatter", "granule loss"]
        fraud_signals := ["duplicate photo"]
        final_assessment := "Hail damage"
        peril_match := some ⟨"unknown", ""⟩ }

/-- A demo copy oracle for the analyzed-image copy step. -/
def demoCopyDest : String → Option String := fun u =>
  if u == "s3://out/a.jpg" then some "incident-photos/r1/analyzed-a.jpeg" else none

/-- C6 witness: the aggregation theorem applied at a concrete three-photo
report, concluding the concrete peril match among the other fields. -/
theorem worker_aggregation_witness :
    (analysisUpdateInput "r1" ["a.jpg", "b.jpg", "c.jpg"] demoOracle
      demoCopyDest).aiAnalysis.peril_match = ⟨"hail", "circular dents"⟩ ∧
    (analysisUpdateInput "r1" ["a.jpg", "b.jpg", "c.jpg"] demoOracle
      demoCopyDest).status = "submitted" := by
  constructor
  · exact (worker_aggregation "r1" ["a.jpg", "b.jpg", "c.jpg"] demoOracle
      demoCopyDest).2.2.2.2.1 ⟨"hail", "circular dents"⟩ (by decide)
  · exact (worker_aggregation "r1" ["a.jpg", "b.jpg", "c.jpg"] demoOracle
      demoCopyDest).2.2.2.2.2.2

end StraightForward
